import Mathlib

/-!
Verification of the stream-reconciliation chat client.

This file gives a shallow embedding, in Lean 4, of the pure logic of the
repository's four source files:

* `src/app/chat.tsx`   — the chat client (JSON-argument parsing, tool-call /
  tool-result correlation, approval gating, message submission);
* `src/app/page.tsx`   — the page entry plus an earlier variant of the chat
  client (`TOOL_CALL_END` capture of authoritative tool inputs);
* `src/app/api/chat/tools.ts` — the weather tools (WMO weather-code table);
* `src/app/api/chat/route.ts` — the POST chat endpoint.

JavaScript idioms are embedded as follows: a value that may be `null` or
`undefined` becomes an `Option`; `JSON.parse`, which throws on invalid input,
becomes a total function into `Option Json`; JS `Map` and record objects
keyed by strings become functions `String → Option _` built by folds that
mirror the source loops; React components are modelled by the pure functions
that decide which element tree (constructor) they return.
-/

/-! ## JSON values

JSON numbers are kept as their source lexeme (a `String`): no claim below
inspects numeric values, and this avoids embedding floating point. -/

inductive Json where
  | null
  | bool (b : Bool)
  | num (lexeme : String)
  | str (s : String)
  | arr (elems : List Json)
  | obj (fields : List (String × Json))
deriving Repr

/-! ## A total embedding of `JSON.parse`

`JSON.parse` either returns a value or throws; the embedding returns
`Option Json`, with `none` for every input on which `JSON.parse` throws.
The grammar implemented is exactly JSON (RFC 8259, as `JSON.parse`
accepts it): the four whitespace characters, `true`/`false`/`null`,
double-quoted strings with the standard escapes, numbers with no leading
zeros, arrays and objects with no trailing commas.

The parser is written with an explicit fuel argument so that every
function is structurally recursive and reduces inside the kernel. -/

def lBraceChar : Char := Char.ofNat 123

def rBraceChar : Char := Char.ofNat 125

def isJsonWs (c : Char) : Bool :=
  c = ' ' || c = '\t' || c = '\n' || c = '\r'

def skipWs : List Char → List Char
  | [] => []
  | c :: cs => if isJsonWs c then skipWs cs else c :: cs

def isHexDigitChar (c : Char) : Bool :=
  c.isDigit || ('a' ≤ c && c ≤ 'f') || ('A' ≤ c && c ≤ 'F')

def hexDigitVal (c : Char) : Nat :=
  if c.isDigit then c.toNat - '0'.toNat
  else if 'a' ≤ c && c ≤ 'f' then c.toNat - 'a'.toNat + 10
  else c.toNat - 'A'.toNat + 10

/-- Parse the characters of a JSON string after the opening quote, returning
the decoded string and the input remaining after the closing quote. -/
def parseStringChars : List Char → String → Option (String × List Char)
  | [], _ => none
  | c :: rest, acc =>
    if c = '"' then some (acc, rest)
    else if c = '\\' then
      match rest with
      | [] => none
      | e :: rest2 =>
        if e = '"' then parseStringChars rest2 (acc.push '"')
        else if e = '\\' then parseStringChars rest2 (acc.push '\\')
        else if e = '/' then parseStringChars rest2 (acc.push '/')
        else if e = 'b' then parseStringChars rest2 (acc.push (Char.ofNat 8))
        else if e = 'f' then parseStringChars rest2 (acc.push (Char.ofNat 12))
        else if e = 'n' then parseStringChars rest2 (acc.push '\n')
        else if e = 'r' then parseStringChars rest2 (acc.push '\r')
        else if e = 't' then parseStringChars rest2 (acc.push '\t')
        else if e = 'u' then
          match rest2 with
          | h1 :: h2 :: h3 :: h4 :: rest3 =>
            if isHexDigitChar h1 && isHexDigitChar h2 &&
               isHexDigitChar h3 && isHexDigitChar h4 then
              parseStringChars rest3 (acc.push (Char.ofNat
                (((hexDigitVal h1 * 16 + hexDigitVal h2) * 16 +
                  hexDigitVal h3) * 16 + hexDigitVal h4)))
            else none
          | _ => none
        else none
    else if c.toNat < 32 then none
    else parseStringChars rest (acc.push c)

/-- Split off the longest prefix of decimal digits. -/
def takeDigits : List Char → List Char × List Char
  | [] => ([], [])
  | c :: cs =>
    if c.isDigit then
      let (ds, r) := takeDigits cs
      (c :: ds, r)
    else ([], c :: cs)

def parseFracPart : List Char → Option (String × List Char)
  | '.' :: r =>
    let (ds, r2) := takeDigits r
    if ds.isEmpty then none else some ("." ++ ds.asString, r2)
  | l => some ("", l)

def parseExpPart : List Char → Option (String × List Char)
  | [] => some ("", [])
  | c :: r =>
    if c = 'e' || c = 'E' then
      let (signS, r1) : String × List Char :=
        match r with
        | s :: r2 => if s = '+' || s = '-' then (String.singleton s, r2) else ("", s :: r2)
        | [] => ("", [])
      let (ds, r2) := takeDigits r1
      if ds.isEmpty then none else some (String.singleton c ++ signS ++ ds.asString, r2)
    else some ("", c :: r)

/-- Parse a JSON number lexeme (`-?(0|[1-9][0-9]*)(\.[0-9]+)?([eE][+-]?[0-9]+)?`). -/
def parseNumber (l : List Char) : Option (String × List Char) :=
  let (sign, l1) : String × List Char :=
    match l with
    | '-' :: r => ("-", r)
    | _ => ("", l)
  let (intDs, l2) := takeDigits l1
  if intDs.isEmpty then none
  else if intDs.length > 1 && intDs.head? = some '0' then none
  else
    match parseFracPart l2 with
    | none => none
    | some (fracS, l3) =>
      match parseExpPart l3 with
      | none => none
      | some (expS, l4) => some (sign ++ intDs.asString ++ fracS ++ expS, l4)

/-- `JSON.parse` keeps a duplicated object key at its first position with its
last value; `setField` mirrors that. -/
def setField (fields : List (String × Json)) (k : String) (v : Json) :
    List (String × Json) :=
  if fields.any (fun p => p.1 = k) then
    fields.map (fun p => if p.1 = k then (k, v) else p)
  else fields ++ [(k, v)]

/-- Parser mode: a JSON value, the remaining items of an array, or the
remaining fields of an object. -/
inductive PMode where
  | value
  | arrItems (first : Bool) (acc : List Json)
  | objItems (first : Bool) (acc : List (String × Json))

def parseJ : Nat → PMode → List Char → Option (Json × List Char)
  | 0, _, _ => none
  | fuel + 1, PMode.value, l =>
    match skipWs l with
    | [] => none
    | c :: rest =>
      if c = '"' then
        match parseStringChars rest "" with
        | some (s, r) => some (Json.str s, r)
        | none => none
      else if c = 't' then
        match rest with
        | 'r' :: 'u' :: 'e' :: r => some (Json.bool true, r)
        | _ => none
      else if c = 'f' then
        match rest with
        | 'a' :: 'l' :: 's' :: 'e' :: r => some (Json.bool false, r)
        | _ => none
      else if c = 'n' then
        match rest with
        | 'u' :: 'l' :: 'l' :: r => some (Json.null, r)
        | _ => none
      else if c = '[' then parseJ fuel (PMode.arrItems true []) rest
      else if c = lBraceChar then parseJ fuel (PMode.objItems true []) rest
      else if c = '-' || c.isDigit then
        match parseNumber (c :: rest) with
        | some (s, r) => some (Json.num s, r)
        | none => none
      else none
  | fuel + 1, PMode.arrItems first acc, l =>
    match skipWs l with
    | [] => none
    | c :: rest =>
      if first && c = ']' then some (Json.arr [], rest)
      else
        match parseJ fuel PMode.value (c :: rest) with
        | some (v, r) =>
          match skipWs r with
          | [] => none
          | c2 :: r2 =>
            if c2 = ',' then parseJ fuel (PMode.arrItems false (acc ++ [v])) r2
            else if c2 = ']' then some (Json.arr (acc ++ [v]), r2)
            else none
        | none => none
  | fuel + 1, PMode.objItems first acc, l =>
    match skipWs l with
    | [] => none
    | c :: rest =>
      if first && c = rBraceChar then some (Json.obj [], rest)
      else if c = '"' then
        match parseStringChars rest "" with
        | some (key, r) =>
          match skipWs r with
          | ':' :: r2 =>
            match parseJ fuel PMode.value r2 with
            | some (v, r3) =>
              match skipWs r3 with
              | [] => none
              | c3 :: r4 =>
                if c3 = ',' then parseJ fuel (PMode.objItems false (setField acc key v)) r4
                else if c3 = rBraceChar then some (Json.obj (setField acc key v), r4)
                else none
            | none => none
          | _ => none
        | none => none
      else none

/-- Total embedding of `JSON.parse`: `none` exactly when `JSON.parse` throws.
The fuel `2 * length + 4` dominates the recursion depth, which grows by at
most two per input character consumed. -/
def jsonParse (s : String) : Option Json :=
  let cs := s.toList
  match parseJ (2 * cs.length + 4) PMode.value cs with
  | some (v, rest) => if (skipWs rest).isEmpty then some v else none
  | none => none

/-! ## An embedding of `JSON.stringify`

`jsonStringify` is the compact form `JSON.stringify(v)`;
`jsonStringifyPretty` is `JSON.stringify(v, null, 2)` as used by the
renderer. Number lexemes are emitted as stored (see `Json.num`). -/

def hexDigitChar (n : Nat) : Char :=
  if n < 10 then Char.ofNat ('0'.toNat + n) else Char.ofNat ('a'.toNat + n - 10)

def jsonEscapeChar (c : Char) : String :=
  if c = '"' then "\\\""
  else if c = '\\' then "\\\\"
  else if c = '\n' then "\\n"
  else if c = '\r' then "\\r"
  else if c = '\t' then "\\t"
  else if c = Char.ofNat 8 then "\\b"
  else if c = Char.ofNat 12 then "\\f"
  else if c.toNat < 32 then
    "\\u00" ++ String.singleton (hexDigitChar (c.toNat / 16)) ++
      String.singleton (hexDigitChar (c.toNat % 16))
  else String.singleton c

def jsonEscapeList : List Char → String
  | [] => ""
  | c :: cs => jsonEscapeChar c ++ jsonEscapeList cs

def jsonQuote (s : String) : String :=
  "\"" ++ jsonEscapeList s.toList ++ "\""

mutual

def jsonStringify : Json → String
  | .null => "null"
  | .bool b => if b then "true" else "false"
  | .num lexeme => lexeme
  | .str s => jsonQuote s
  | .arr xs => "[" ++ jsonStringifyList xs ++ "]"
  | .obj fs => "\x7b" ++ jsonStringifyFields fs ++ "\x7d"

def jsonStringifyList : List Json → String
  | [] => ""
  | [x] => jsonStringify x
  | x :: xs => jsonStringify x ++ "," ++ jsonStringifyList xs

def jsonStringifyFields : List (String × Json) → String
  | [] => ""
  | [(k, v)] => jsonQuote k ++ ":" ++ jsonStringify v
  | (k, v) :: fs => jsonQuote k ++ ":" ++ jsonStringify v ++ "," ++ jsonStringifyFields fs

end

/-- Two spaces of indentation per level, as in `JSON.stringify(v, null, 2)`. -/
def indentPad (level : Nat) : String :=
  String.mk (List.replicate (2 * level) ' ')

mutual

def jsonStringifyPrettyAt : Nat → Json → String
  | _, .null => "null"
  | _, .bool b => if b then "true" else "false"
  | _, .num lexeme => lexeme
  | _, .str s => jsonQuote s
  | _, .arr [] => "[]"
  | level, .arr (x :: xs) =>
    "[\n" ++ jsonStringifyPrettyList (level + 1) (x :: xs) ++ "\n" ++ indentPad level ++ "]"
  | _, .obj [] => "\x7b\x7d"
  | level, .obj (f :: fs) =>
    "\x7b\n" ++ jsonStringifyPrettyFields (level + 1) (f :: fs) ++ "\n" ++ indentPad level ++ "\x7d"

def jsonStringifyPrettyList : Nat → List Json → String
  | _, [] => ""
  | level, [x] => indentPad level ++ jsonStringifyPrettyAt level x
  | level, x :: xs =>
    indentPad level ++ jsonStringifyPrettyAt level x ++ ",\n" ++
      jsonStringifyPrettyList level xs

def jsonStringifyPrettyFields : Nat → List (String × Json) → String
  | _, [] => ""
  | level, [(k, v)] => indentPad level ++ jsonQuote k ++ ": " ++ jsonStringifyPrettyAt level v
  | level, (k, v) :: fs =>
    indentPad level ++ jsonQuote k ++ ": " ++ jsonStringifyPrettyAt level v ++ ",\n" ++
      jsonStringifyPrettyFields level fs

end

/-- `JSON.stringify(v, null, 2)`. -/
def jsonStringifyPretty (v : Json) : String :=
  jsonStringifyPrettyAt 0 v

/-! ## `safeParseJSON` (chat.tsx:10-19 and page.tsx:18-27, identical) -/

/-- JS `String.prototype.trim`: strip whitespace from both ends.  (JS trims
the full Unicode whitespace class; the sources only ever meet ASCII
whitespace.) -/
def jsTrim (s : String) : String :=
  ((s.toList.dropWhile Char.isWhitespace).reverse.dropWhile Char.isWhitespace).reverse.asString

/-- ```js
const safeParseJSON = (json) => {
  if (!json || json.trim() === "") { return null; }
  try { return JSON.parse(json); } catch { return null; }
};
```
The TS function returns `unknown | null`, with `null` both on parse failure
and when the document itself is `null` (`JSON.parse("null")` is `null`);
every caller treats that return value as "no value".  The embedding returns
`Option Json` with `none` playing the role of the JS `null` result, so a
parsed top-level `Json.null` collapses to `none` exactly as in the source.
(`!json` is subsumed by the trim test: the empty string is the only falsy
string.) -/
def safeParseJSON (json : String) : Option Json :=
  if jsTrim json = "" then none
  else
    match jsonParse json with
    | some Json.null => none
    | some v => some v
    | none => none

/-! ## The part / message data model (`@tanstack/ai` part shapes as used
by the two clients) -/

/-- `part.approval` — `{ id: string, decision?: bool }`. -/
structure ApprovalInfo where
  id : String
  decision : Option Bool := none
deriving Repr

/-- A `ToolCallPart` as the clients consume it: `state` is the raw state
string (`"input-streaming"`, `"input-complete"`, `"approval-requested"`,
`"approval-responded"`, …) or `none` when absent; `output` is `none` for
both JS `undefined` and JS `null` (the source only ever tests
`part.output !== undefined && part.output !== null` / `part.output ??`). -/
structure ToolCallPart where
  id : String
  name : String
  arguments : String
  state : Option String
  approval : Option ApprovalInfo := none
  output : Option Json := none
deriving Repr

/-- A `ToolResultPart`; `content` is `""` for an absent/empty content string
(the source only ever tests its truthiness, `result?.content`). -/
structure ToolResultPart where
  toolCallId : String
  state : Option String := none
  content : String := ""
deriving Repr

/-- The tagged part union (`type` field in the source); called `Part` there,
renamed here because Mathlib already declares a `Part`. -/
inductive MsgPart where
  | text (content : String)
  | thinking (content : String)
  | toolCall (call : ToolCallPart)
  | toolResult (res : ToolResultPart)
deriving Repr

structure Message where
  id : String
  role : String
  parts : List MsgPart
deriving Repr

/-! ## `getParsedArgs` (chat.tsx:129-142; the same logic is inlined in
page.tsx:85-99) -/

/-- The state test of chat.tsx:137-140 / page.tsx:94-97. -/
def shouldParseArgs (part : ToolCallPart) : Bool :=
  part.state == some "input-complete" ||
  part.state == some "approval-requested" ||
  part.state == some "approval-responded"

/-- ```js
const storedInput = toolInputs.get(part.id);
if (storedInput !== undefined) { return storedInput; }
const shouldParse = ...;
return shouldParse ? safeParseJSON(part.arguments) : null;
```
`toolInputs` is embedded as `String → Option Json`, `none` meaning the JS
`Map` holds no entry (`get` returned `undefined`).  Both builders of the map
in the sources (`buildToolInputs` below, chat.tsx:320-333, and
`onChunkUpdate` below, page.tsx:146-157) only ever store parsed JSON values,
never `undefined`/`null`. -/
def getParsedArgs (part : ToolCallPart) (toolInputs : String → Option Json) :
    Option Json :=
  match toolInputs part.id with
  | some storedInput => some storedInput
  | none => if shouldParseArgs part then safeParseJSON part.arguments else none

/-! ## `getToolOutput` (chat.tsx:145-165) -/

/-- `part.output` wins; otherwise a truthy `result.content` is parsed, and a
failed parse (`null`) keeps the "Executing..." state. -/
def getToolOutput (part : ToolCallPart) (result : Option ToolResultPart) :
    Option Json :=
  match part.output with
  | some o => some o
  | none =>
    match result with
    | some r => if r.content ≠ "" then safeParseJSON r.content else none
    | none => none

/-! ## `formatDisplayArgs` (chat.tsx:168-179; the same three branches are
inlined in page.tsx:106-117) -/

def formatDisplayArgs (part : ToolCallPart) (parsedArgs : Option Json) : String :=
  match parsedArgs with
  | some v => jsonStringifyPretty v
  | none => if part.arguments ≠ "" then part.arguments else ""

/-! ## `renderToolCallContent` (chat.tsx:182-249)

A React component is embedded as the pure function computing which element
tree it returns; the constructors carry the data the chosen tree receives. -/

inductive RenderedContent where
  | approvalPrompt (approvalId : String) (args : Json) (toolName : String)
  | outputView (toolName : String) (output : Json)
  | errorView (error : Json)
  | executing
deriving Repr

/-- chat.tsx:220-248: output if available, else the error card when the
result content parses to an object with an `error` key, else "Executing...".
(`typeof parsed === "object"` restricts the error card to objects and
arrays; `"error" in parsed` is never true of a parsed array, hence the
single `Json.obj` case.) -/
def renderToolCallRest (part : ToolCallPart) (output : Option Json)
    (result : Option ToolResultPart) : RenderedContent :=
  match output with
  | some o => RenderedContent.outputView part.name o
  | none =>
    match result with
    | some r =>
      if r.content ≠ "" then
        match safeParseJSON r.content with
        | some (Json.obj fields) =>
          match fields.lookup "error" with
          | some e => RenderedContent.errorView e
          | none => RenderedContent.executing
        | _ => RenderedContent.executing
      else RenderedContent.executing
    | none => RenderedContent.executing

/-- chat.tsx:197-218: the approval prompt is returned only when
`part.state === "approval-requested" && part.approval !== undefined`, the
parsed arguments are non-null and `part.approval?.id` is truthy; otherwise
rendering falls through to `renderToolCallRest`. -/
def renderToolCallContent (part : ToolCallPart) (parsedArgs : Option Json)
    (output : Option Json) (result : Option ToolResultPart) : RenderedContent :=
  match parsedArgs with
  | some args =>
    if part.state == some "approval-requested" && part.approval.isSome then
      match part.approval with
      | some ap =>
        if ap.id ≠ "" then RenderedContent.approvalPrompt ap.id args part.name
        else renderToolCallRest part output result
      | none => renderToolCallRest part output result
    else renderToolCallRest part output result
  | none => renderToolCallRest part output result

/-! ## Tool-result correlation (chat.tsx:349-357, identical in
page.tsx:174-182)

`message.parts.filter(tool-result).reduce((acc, r) => { acc[r.toolCallId] = r;
return acc; }, {})`, then looked up as `toolResults[part.id]`
(chat.tsx:410 / page.tsx:223).  The record is embedded as a function
`String → Option ToolResultPart`; a later assignment to the same key
overwrites an earlier one. -/

def toolResultParts (parts : List MsgPart) : List ToolResultPart :=
  parts.filterMap fun p =>
    match p with
    | MsgPart.toolResult r => some r
    | _ => none

def toolResultsIndex (parts : List MsgPart) : String → Option ToolResultPart :=
  (toolResultParts parts).foldl
    (fun acc r => fun key => if key = r.toolCallId then some r else acc key)
    (fun _ => none)

/-! ## The `toolInputs` map of chat.tsx:320-333

```js
const inputs = new Map();
for (const message of messages)
  for (const part of message.parts)
    if (part.type === "tool-call" && part.arguments) {
      const parsed = safeParseJSON(part.arguments);
      if (parsed !== null) inputs.set(part.id, parsed);
    }
```
This `useMemo` body runs afresh on every change of `messages`.
`buildToolInputsCounted` additionally counts the parts the two nested loops
visit, for the cost statement of C8. -/

def toolInputsStep (inputs : String → Option Json) (p : MsgPart) :
    String → Option Json :=
  match p with
  | MsgPart.toolCall call =>
    if call.arguments ≠ "" then
      match safeParseJSON call.arguments with
      | some parsed => fun key => if key = call.id then some parsed else inputs key
      | none => inputs
    else inputs
  | _ => inputs

def buildToolInputs (messages : List Message) : String → Option Json :=
  messages.foldl (fun inputs m => m.parts.foldl toolInputsStep inputs) (fun _ => none)

def buildToolInputsCounted (messages : List Message) :
    (String → Option Json) × Nat :=
  messages.foldl
    (fun acc m => m.parts.foldl (fun acc2 p => (toolInputsStep acc2.1 p, acc2.2 + 1)) acc)
    (fun _ => none, 0)

/-! ## The `toolInputs` map of page.tsx:142-157 (`onChunk` capture) -/

/-- The chunk fields `onChunk` inspects: a `TOOL_CALL_END` with its id and
optional already-parsed `input` (`none` = JS `undefined`), or any other
chunk kind. -/
inductive StreamChunk where
  | toolCallEnd (toolCallId : String) (input : Option Json)
  | otherChunk
deriving Repr

/-- ```js
if (chunk.type === "TOOL_CALL_END" && chunk.input !== undefined)
  setToolInputs(prev => new Map(prev).set(chunk.toolCallId, chunk.input));
``` -/
def onChunkUpdate (toolInputs : String → Option Json) (chunk : StreamChunk) :
    String → Option Json :=
  match chunk with
  | StreamChunk.toolCallEnd toolCallId (some input) =>
    fun key => if key = toolCallId then some input else toolInputs key
  | _ => toolInputs

/-! ## Approval responses (chat.tsx:397-408 wiring, chat.tsx:73-126 prompt) -/

/-- The argument object of `addToolApprovalResponse`. -/
structure ApprovalResponse where
  id : String
  approved : Bool
deriving Repr, DecidableEq

/-- chat.tsx:397-402: `onApprove = (approvalId) =>
addToolApprovalResponse({ id: approvalId, approved: true })`. -/
def chatOnApprove (approvalId : String) : ApprovalResponse :=
  { id := approvalId, approved := true }

/-- chat.tsx:403-408: the same with `approved: false`. -/
def chatOnDeny (approvalId : String) : ApprovalResponse :=
  { id := approvalId, approved := false }

/-- The outbound resume signal produced when the user clicks Approve
(`approve = true`) or Deny on a rendered tool-call card: the composition of
`ApprovalPrompt`'s `handleApprove`/`handleDeny` (chat.tsx:84-92), the
closures `() => onApprove(approvalId)` built at chat.tsx:211-212, and the
`Chat` handlers above.  `none` when no approval prompt is rendered: the
prompt is the only path that issues a decision. -/
def approvalClickSignal (part : ToolCallPart) (parsedArgs : Option Json)
    (output : Option Json) (result : Option ToolResultPart) (approve : Bool) :
    Option ApprovalResponse :=
  match renderToolCallContent part parsedArgs output result with
  | RenderedContent.approvalPrompt approvalId _ _ =>
    some (if approve then chatOnApprove approvalId else chatOnDeny approvalId)
  | _ => none

/-! ## `handleSubmit` (chat.tsx:335-341, identical in page.tsx:160-166) -/

/-- Outcome of one submit: the text handed to `sendMessage` (if any) and the
input field afterwards. -/
structure SubmitOutcome where
  sent : Option String
  input : String
deriving Repr, DecidableEq

/-- ```js
if (input.trim() && !isLoading) { sendMessage(input); setInput(""); }
```
A string is truthy exactly when non-empty, so `input.trim()` is truthy
exactly when `input` does not trim to `""`. -/
def handleSubmit (input : String) (isLoading : Bool) : SubmitOutcome :=
  if jsTrim input ≠ "" ∧ isLoading = false then
    { sent := some input, input := "" }
  else
    { sent := none, input := input }

/-! ## The engine's `respondApproval` (spec §4.3/§6) -/

inductive ApprovalError where
  | unknownApproval
deriving Repr, DecidableEq

/-- A tool call that a `respondApproval(approvalId, _)` may resolve: it is in
state `approval-requested` and carries the matching approval id. -/
def isPendingApproval (approvalId : String) (p : ToolCallPart) : Bool :=
  p.state == some "approval-requested" &&
    (match p.approval with
     | some ap => ap.id == approvalId
     | none => false)

/-- Modelled from the spec: the reconciliation engine's `respondApproval`
operation (spec §4.3 "External decision injection" and §6).  The engine is
provided to this repository by the external `useChat` hook
(`addToolApprovalResponse`), whose implementation is not among the sources;
per the spec it locates the `ToolCallPart` in state `ApprovalRequested`
matching the approval id, transitions it to `ApprovalResponded` recording
the decision, and "fails with `UnknownApproval` if no pending
`ApprovalRequested` tool call matches the id", mutating nothing. -/
def respondApproval (calls : List ToolCallPart) (approvalId : String)
    (decision : Bool) : Except ApprovalError (List ToolCallPart) :=
  if calls.any (isPendingApproval approvalId) then
    Except.ok (calls.map fun p =>
      if isPendingApproval approvalId p then
        { p with
            state := some "approval-responded",
            approval := p.approval.map fun ap => { ap with decision := some decision } }
      else p)
  else Except.error ApprovalError.unknownApproval

/-! ## `getWeatherCondition` (tools.ts:26-49) -/

/-- The WMO table literal of tools.ts:27-47, in source order. -/
def weatherConditions : List (Nat × String) :=
  [(0, "Clear sky"), (1, "Mainly clear"), (2, "Partly cloudy"), (3, "Overcast"),
   (45, "Foggy"), (48, "Depositing rime fog"), (51, "Light drizzle"),
   (53, "Moderate drizzle"), (55, "Dense drizzle"), (61, "Slight rain"),
   (63, "Moderate rain"), (65, "Heavy rain"), (71, "Slight snow"),
   (73, "Moderate snow"), (75, "Heavy snow"), (80, "Slight rain showers"),
   (81, "Moderate rain showers"), (82, "Violent rain showers"),
   (95, "Thunderstorm")]

/-- `conditions[code] || "Unknown"`: every stored string is truthy, so `||`
is exactly the default for a missing key. -/
def getWeatherCondition (code : Nat) : String :=
  (weatherConditions.lookup code).getD "Unknown"

/-! ## `POST` (route.ts:5-50) -/

/-- What `chat({...})`/`toStreamResponse` did inside the `try`: either a
stream, or a throw — `thrown (some m)` an `Error` with message `m`,
`thrown none` a non-`Error` value. -/
inductive ChatStreamResult where
  | ok (stream : String)
  | thrown (message : Option String)
deriving Repr, DecidableEq

/-- The route's possible responses: the streamed response, or a JSON error
response (`Content-Type: application/json`) with its status and body. -/
inductive PostResponse where
  | streamResponse (stream : String)
  | jsonError (status : Nat) (body : String)
deriving Repr, DecidableEq

/-- `JSON.stringify({ error: msg })`. -/
def jsonErrorBody (msg : String) : String :=
  jsonStringify (Json.obj [("error", Json.str msg)])

/-- route.ts:5-50 as a function of the `OPENAI_API_KEY` value (`none` =
unset) and of what stream creation did.  The second component records
whether `await request.json()` was executed: the key check at route.ts:7-17
returns before the body is read.  `!process.env.OPENAI_API_KEY` holds
exactly for an unset or empty variable; a throw inside the `try` yields the
500 JSON response with `error.message` for an `Error` and
`"An error occurred"` otherwise. -/
def POST (apiKey : Option String) (chatResult : ChatStreamResult) :
    PostResponse × Bool :=
  if apiKey.getD "" = "" then
    (PostResponse.jsonError 500 (jsonErrorBody "OPENAI_API_KEY not configured"), false)
  else
    match chatResult with
    | ChatStreamResult.ok s => (PostResponse.streamResponse s, true)
    | ChatStreamResult.thrown m =>
      (PostResponse.jsonError 500 (jsonErrorBody (m.getD "An error occurred")), true)

/-! ## Concrete inputs used by witnesses and counterexamples -/

/-- The authoritative parsed input of the spec's scenarios. -/
def demoAuthInput : Json := Json.obj [("location", Json.str "Paris")]

/-- A tool call whose accumulated fragment is invalid mid-stream JSON. -/
def demoCallPart : ToolCallPart :=
  { id := "t1", name := "get_weather", arguments := "\x7b\"locat",
    state := some "input-complete" }

/-- A `toolInputs` map holding an authoritative input for `"t1"`. -/
def demoInputs : String → Option Json :=
  fun key => if key = "t1" then some demoAuthInput else none

/-- The empty `toolInputs` map. -/
def noInputs : String → Option Json := fun _ => none

/-- A tool call awaiting approval. -/
def demoApprovalPart : ToolCallPart :=
  { id := "t2", name := "secure_get_weather",
    arguments := "\x7b\"location\":\"Paris\"\x7d",
    state := some "approval-requested", approval := some { id := "a1" } }

/-- A tool call still streaming its input. -/
def demoStreamingPart : ToolCallPart :=
  { id := "t3", name := "get_weather", arguments := "", state := some "input-streaming" }

/-- Message parts with a call and two results sharing its id. -/
def demoParts : List MsgPart :=
  [MsgPart.toolCall demoCallPart,
   MsgPart.toolResult { toolCallId := "t1", content := "\x7b\"temperature\":1\x7d" },
   MsgPart.toolResult { toolCallId := "t1", content := "\x7b\"temperature\":2\x7d" }]

/-- A one-message history with three parts. -/
def demoHistory : List Message :=
  [{ id := "m1", role := "assistant",
     parts := [MsgPart.text "Hello",
               MsgPart.toolCall demoCallPart,
               MsgPart.toolResult { toolCallId := "t1", content := "\x7b\"temperature\":1\x7d" }] }]

/-- `demoHistory` after one further chunk appended a single new part. -/
def demoHistoryPlusOne : List Message :=
  [{ id := "m1", role := "assistant",
     parts := [MsgPart.text "Hello",
               MsgPart.toolCall demoCallPart,
               MsgPart.toolResult { toolCallId := "t1", content := "\x7b\"temperature\":1\x7d" },
               MsgPart.text "Done"] }]

/-! ## Helper lemmas -/

/-- A defaulted association-list lookup either returns a stored pair or, when
the key is absent, the default. -/
theorem lookup_getD_mem_or_notin (l : List (Nat × String)) (c : Nat) (d : String) :
    (c, (l.lookup c).getD d) ∈ l ∨ (c ∉ l.map Prod.fst ∧ (l.lookup c).getD d = d) := by
  induction l with
  | nil => right; simp
  | cons hd tl ih =>
    rcases hd with ⟨k, v⟩
    by_cases h : c = k
    · subst h
      left
      simp [List.lookup]
    · have hbeq : (c == k) = false := by simp [h]
      rcases ih with h1 | ⟨h2, h3⟩
      · left
        right
        simpa [List.lookup, hbeq] using h1
      · right
        constructor
        · simp [h, h2]
        · simpa [List.lookup, hbeq] using h3

/-! ## Claim theorems -/

/-- C2: `safeParseJSON` is a total function into `Option Json` — syntactic
failure yields the `Incomplete` marker `none` instead of an exception (the
`try`/`catch` of chat.tsx:14-18 embedded as the `Option` codomain) — an
empty or whitespace-only input yields `none` and never a value, and on the
spec's mid-stream example (an unterminated object) it yields `none`, while a
well-formed buffer does produce a value. -/
theorem safeParseJSON_total_incomplete :
    (∀ s : String, jsTrim s = "" → safeParseJSON s = none)
    ∧ safeParseJSON "\x7b\"locat" = none
    ∧ safeParseJSON "\x7b\"location\": \"Paris\"\x7d" =
        some (Json.obj [("location", Json.str "Paris")]) := by
  refine ⟨?_, rfl, rfl⟩
  intro s h
  simp [safeParseJSON, h]

/-- Witness for C2 at the whitespace-only input `"  "`. -/
theorem safeParseJSON_total_incomplete_witness :
    jsTrim "  " = "" ∧ safeParseJSON "  " = none :=
  ⟨by decide, safeParseJSON_total_incomplete.1 "  " (by decide)⟩

/-- C7: submitting requires a non-blank input — a string that trims to empty
is never sent and leaves the state unchanged; a non-blank input while not
loading is handed to `sendMessage` verbatim and the field is cleared. -/
theorem handleSubmit_requires_nonblank :
    (∀ (input : String) (isLoading : Bool), jsTrim input = "" →
        handleSubmit input isLoading = { sent := none, input := input })
    ∧ (∀ input : String, jsTrim input ≠ "" →
        handleSubmit input false = { sent := some input, input := "" }) := by
  constructor
  · intro input isLoading h
    simp [handleSubmit, h]
  · intro input h
    simp [handleSubmit, h]

/-- Witness for C7 at a whitespace-only and at a non-blank input. -/
theorem handleSubmit_requires_nonblank_witness :
    (jsTrim " \n " = "" ∧ handleSubmit " \n " true = { sent := none, input := " \n " })
    ∧ (jsTrim "hi" ≠ "" ∧ handleSubmit "hi" false = { sent := some "hi", input := "" }) :=
  ⟨⟨by decide, handleSubmit_requires_nonblank.1 " \n " true (by decide)⟩,
   ⟨by decide, handleSubmit_requires_nonblank.2 "hi" (by decide)⟩⟩

/-- C9: `getWeatherCondition` is total with a non-empty result for every
code, maps every code outside the table to `"Unknown"`, maps each of the
listed WMO codes to its fixed name, and the table lists 19 codes. -/
theorem getWeatherCondition_total :
    (∀ code : Nat, getWeatherCondition code ≠ "")
    ∧ (∀ code : Nat, code ∉ weatherConditions.map Prod.fst →
        getWeatherCondition code = "Unknown")
    ∧ (∀ p ∈ weatherConditions, getWeatherCondition p.1 = p.2)
    ∧ weatherConditions.length = 19 := by
  have hval : ∀ p ∈ weatherConditions, p.2 ≠ "" := by decide
  refine ⟨?_, ?_, by decide, rfl⟩
  · intro code
    rcases lookup_getD_mem_or_notin weatherConditions code "Unknown" with h | ⟨-, h⟩
    · exact hval _ h
    · show (weatherConditions.lookup code).getD "Unknown" ≠ ""
      rw [h]
      decide
  · intro code hn
    rcases lookup_getD_mem_or_notin weatherConditions code "Unknown" with h | ⟨-, h⟩
    · exact absurd (List.mem_map_of_mem Prod.fst h) hn
    · exact h

/-- Witness for C9 at the unlisted code 7 and the listed code 95. -/
theorem getWeatherCondition_total_witness :
    ((7 : Nat) ∉ weatherConditions.map Prod.fst ∧ getWeatherCondition 7 = "Unknown")
    ∧ ((95, "Thunderstorm") ∈ weatherConditions ∧ getWeatherCondition 95 = "Thunderstorm") :=
  ⟨⟨by decide, getWeatherCondition_total.2.1 7 (by decide)⟩,
   ⟨by decide, getWeatherCondition_total.2.2.1 (95, "Thunderstorm") (by decide)⟩⟩

/-- C10: with `OPENAI_API_KEY` unset or empty, `POST` answers 500 with body
`{"error":"OPENAI_API_KEY not configured"}` without reading the request body
(second component `false`) and independently of the chat backend (the
response does not depend on `chatResult`); and a value thrown during stream
creation yields a 500 JSON error response — with the `Error`'s message, or
`"An error occurred"` for a non-`Error` — rather than escaping. -/
theorem POST_guards_api_key :
    (∀ res : ChatStreamResult,
        POST none res =
          (PostResponse.jsonError 500 "\x7b\"error\":\"OPENAI_API_KEY not configured\"\x7d", false)
        ∧ POST (some "") res =
          (PostResponse.jsonError 500 "\x7b\"error\":\"OPENAI_API_KEY not configured\"\x7d", false))
    ∧ (∀ (key msg : String), key ≠ "" →
        POST (some key) (ChatStreamResult.thrown (some msg)) =
          (PostResponse.jsonError 500 (jsonErrorBody msg), true))
    ∧ (∀ key : String, key ≠ "" →
        POST (some key) (ChatStreamResult.thrown none) =
          (PostResponse.jsonError 500 (jsonErrorBody "An error occurred"), true)) := by
  refine ⟨fun res => ⟨rfl, rfl⟩, ?_, ?_⟩
  · intro key msg h
    simp [POST, h]
  · intro key h
    simp [POST, h]

/-- Witness for C10 at a set key and a thrown `Error`. -/
theorem POST_guards_api_key_witness :
    ("sk-test" : String) ≠ "" ∧
    POST (some "sk-test") (ChatStreamResult.thrown (some "boom")) =
      (PostResponse.jsonError 500 (jsonErrorBody "boom"), true) :=
  ⟨by decide, POST_guards_api_key.2.1 "sk-test" "boom" (by decide)⟩

/-- C1: an authoritative parsed input stored in the `toolInputs` map for a
call id — in particular one just captured from a `TOOL_CALL_END` chunk —
always determines the resolved argument value, for every accumulated
fragment string `part.arguments` whether or not it would parse; the
accumulator's best-effort parse is consulted only when no stored value
exists. -/
theorem getParsedArgs_prefers_authoritative :
    ∀ (toolInputs : String → Option Json) (part : ToolCallPart) (v : Json),
      (toolInputs part.id = some v → getParsedArgs part toolInputs = some v)
      ∧ getParsedArgs part
          (onChunkUpdate toolInputs (StreamChunk.toolCallEnd part.id (some v))) = some v
      ∧ (toolInputs part.id = none →
          getParsedArgs part toolInputs =
            if shouldParseArgs part then safeParseJSON part.arguments else none) := by
  intro toolInputs part v
  refine ⟨?_, ?_, ?_⟩
  · intro h
    simp [getParsedArgs, h]
  · simp [getParsedArgs, onChunkUpdate]
  · intro h
    simp [getParsedArgs, h]

/-- Witness for C1: the stored authoritative input for `"t1"` wins although
`demoCallPart.arguments` is an unparseable fragment. -/
theorem getParsedArgs_prefers_authoritative_witness :
    demoInputs demoCallPart.id = some demoAuthInput
    ∧ safeParseJSON demoCallPart.arguments = none
    ∧ getParsedArgs demoCallPart demoInputs = some demoAuthInput :=
  ⟨rfl, rfl,
   (getParsedArgs_prefers_authoritative demoInputs demoCallPart demoAuthInput).1 rfl⟩

/-- The reduce of chat.tsx:351-357 resolves a key to the result of the last
assignment to it. -/
theorem resultIndex_eq_getLast (rs : List ToolResultPart)
    (acc : String → Option ToolResultPart) (key : String) :
    rs.foldl (fun acc r => fun k => if k = r.toolCallId then some r else acc k) acc key
      = match (rs.filter fun r => r.toolCallId == key).getLast? with
        | some r => some r
        | none => acc key := by
  induction rs using List.reverseRecOn with
  | nil => simp
  | append_singleton rs r ih =>
    rw [List.foldl_append]
    simp only [List.foldl_cons, List.foldl_nil]
    by_cases h : key = r.toolCallId
    · have hb : (r.toolCallId == key) = true := by simp [h]
      simp [List.filter_append, hb, h, List.getLast?_concat]
    · have hb : (r.toolCallId == key) = false := by
        simp only [beq_eq_false_iff_ne, ne_eq]
        exact fun hh => h hh.symm
      simp [List.filter_append, hb, h, ih]

/-- C3: the result linked to a tool-call id is exactly the last tool-result
part of the same message parts whose `toolCallId` equals that id; inserting
a tool-call part anywhere leaves the linkage unchanged (it depends only on
matching ids, not relative order); and no result is linked when no part
matches. -/
theorem toolResults_link_by_id :
    ∀ (parts : List MsgPart) (callId : String),
      toolResultsIndex parts callId
          = ((toolResultParts parts).filter fun r => r.toolCallId == callId).getLast?
      ∧ (∀ (l1 l2 : List MsgPart) (call : ToolCallPart),
          toolResultsIndex (l1 ++ MsgPart.toolCall call :: l2) callId
            = toolResultsIndex (l1 ++ l2) callId)
      ∧ (((toolResultParts parts).filter fun r => r.toolCallId == callId) = [] →
          toolResultsIndex parts callId = none) := by
  intro parts callId
  refine ⟨?_, ?_, ?_⟩
  · rw [toolResultsIndex, resultIndex_eq_getLast]
    cases ((toolResultParts parts).filter fun r => r.toolCallId == callId).getLast? <;> simp
  · intro l1 l2 call
    simp [toolResultsIndex, toolResultParts, List.filterMap_append]
  · intro h
    rw [toolResultsIndex, resultIndex_eq_getLast, h]
    simp

/-- Witness for C3: no result is linked for an id with no matching part. -/
theorem toolResults_link_by_id_witness :
    ((toolResultParts demoParts).filter fun r => r.toolCallId == "t9") = []
    ∧ toolResultsIndex demoParts "t9" = none :=
  ⟨rfl, (toolResults_link_by_id demoParts "t9").2.2 rfl⟩

/-- C6: when parsing never succeeded and no authoritative input exists the
displayed arguments are the raw accumulated text — the empty string when
nothing accumulated — and when a parsed value exists its two-space
pretty-print is displayed. -/
theorem display_args_fallback :
    (∀ (part : ToolCallPart) (toolInputs : String → Option Json),
        toolInputs part.id = none → safeParseJSON part.arguments = none →
          formatDisplayArgs part (getParsedArgs part toolInputs) = part.arguments)
    ∧ (∀ (part : ToolCallPart) (toolInputs : String → Option Json),
        toolInputs part.id = none → safeParseJSON part.arguments = none →
          part.arguments = "" →
          formatDisplayArgs part (getParsedArgs part toolInputs) = "")
    ∧ (∀ (part : ToolCallPart) (toolInputs : String → Option Json) (v : Json),
        getParsedArgs part toolInputs = some v →
          formatDisplayArgs part (getParsedArgs part toolInputs)
            = jsonStringifyPretty v) := by
  have hnone : ∀ (part : ToolCallPart) (toolInputs : String → Option Json),
      toolInputs part.id = none → safeParseJSON part.arguments = none →
        getParsedArgs part toolInputs = none := by
    intro part toolInputs h1 h2
    simp [getParsedArgs, h1, h2]
  refine ⟨?_, ?_, ?_⟩
  · intro part toolInputs h1 h2
    rw [hnone part toolInputs h1 h2, formatDisplayArgs]
    by_cases h : part.arguments = "" <;> simp [h]
  · intro part toolInputs h1 h2 h3
    rw [hnone part toolInputs h1 h2, formatDisplayArgs]
    simp [h3]
  · intro part toolInputs v h
    rw [h, formatDisplayArgs]

/-- Witness for C6: the malformed fragment is displayed raw. -/
theorem display_args_fallback_witness :
    noInputs demoCallPart.id = none
    ∧ safeParseJSON demoCallPart.arguments = none
    ∧ formatDisplayArgs demoCallPart (getParsedArgs demoCallPart noInputs)
        = "\x7b\"locat" :=
  ⟨rfl, rfl, display_args_fallback.1 demoCallPart noInputs rfl rfl⟩

/-- The fall-through rendering (chat.tsx:220-248) never shows an approval
prompt. -/
theorem renderToolCallRest_ne_prompt (part : ToolCallPart) (output : Option Json)
    (result : Option ToolResultPart) (aid : String) (args : Json) (tn : String) :
    renderToolCallRest part output result ≠ RenderedContent.approvalPrompt aid args tn := by
  unfold renderToolCallRest
  repeat' split
  all_goals exact fun hh => RenderedContent.noConfusion hh

/-- Inversion: a rendered approval prompt forces the approval-requested
state, a present approval whose non-empty id is the prompt's id, a non-null
parsed argument value equal to the prompt's, and the part's tool name. -/
theorem render_approvalPrompt_inv (part : ToolCallPart) (parsedArgs output : Option Json)
    (result : Option ToolResultPart) (aid : String) (args : Json) (tn : String)
    (h : renderToolCallContent part parsedArgs output result
          = RenderedContent.approvalPrompt aid args tn) :
    part.state = some "approval-requested"
      ∧ (∃ ap, part.approval = some ap ∧ ap.id = aid)
      ∧ aid ≠ "" ∧ parsedArgs = some args ∧ tn = part.name := by
  unfold renderToolCallContent at h
  split at h
  · rename_i x pa
    split at h
    · rename_i hcond
      simp only [Bool.and_eq_true, beq_iff_eq] at hcond
      split at h
      · rename_i ap hap
        split at h
        · rename_i hid
          injection h with h1 h2 h3
          exact ⟨hcond.1, ⟨ap, hap, h1⟩, h1 ▸ hid, by rw [h2], h3.symm⟩
        · exact absurd h (renderToolCallRest_ne_prompt part output result aid args tn)
      · exact absurd h (renderToolCallRest_ne_prompt part output result aid args tn)
    · exact absurd h (renderToolCallRest_ne_prompt part output result aid args tn)
  · exact absurd h (renderToolCallRest_ne_prompt part output result aid args tn)

/-- C4: the approval prompt — the only rendered path that issues an approval
decision — appears only for a tool-call part in state `approval-requested`
that carries an approval identifier; and the engine's `respondApproval`
(spec-modelled, see its definition) on a list of calls none of which is in
state `approval-requested` (e.g. all still streaming) fails with
`UnknownApproval`, mutating nothing. -/
theorem approval_gating :
    (∀ (part : ToolCallPart) (parsedArgs output : Option Json)
        (result : Option ToolResultPart) (aid : String) (args : Json) (tn : String),
        renderToolCallContent part parsedArgs output result
            = RenderedContent.approvalPrompt aid args tn →
          part.state = some "approval-requested"
            ∧ ∃ ap, part.approval = some ap ∧ ap.id = aid)
    ∧ (∀ (calls : List ToolCallPart) (approvalId : String) (decision : Bool),
        (∀ p ∈ calls, p.state ≠ some "approval-requested") →
          respondApproval calls approvalId decision
            = Except.error ApprovalError.unknownApproval) := by
  constructor
  · intro part parsedArgs output result aid args tn h
    have hi := render_approvalPrompt_inv part parsedArgs output result aid args tn h
    exact ⟨hi.1, hi.2.1⟩
  · intro calls approvalId decision hstates
    have hany : calls.any (isPendingApproval approvalId) = false := by
      rw [List.any_eq_false]
      intro p hp hpend
      unfold isPendingApproval at hpend
      rw [Bool.and_eq_true] at hpend
      exact hstates p hp (by simpa using hpend.1)
    simp [respondApproval, hany]

/-- Witness for C4: a rendered prompt for the approval-requested call, and
`UnknownApproval` against a single still-streaming call. -/
theorem approval_gating_witness :
    (renderToolCallContent demoApprovalPart (some demoAuthInput) none none
        = RenderedContent.approvalPrompt "a1" demoAuthInput "secure_get_weather"
     ∧ demoApprovalPart.state = some "approval-requested"
     ∧ ∃ ap, demoApprovalPart.approval = some ap ∧ ap.id = "a1")
    ∧ ((∀ p ∈ [demoStreamingPart], p.state ≠ some "approval-requested")
       ∧ respondApproval [demoStreamingPart] "a1" true
          = Except.error ApprovalError.unknownApproval) := by
  have hstates : ∀ p ∈ [demoStreamingPart], p.state ≠ some "approval-requested" := by
    intro p hp
    rw [List.mem_singleton] at hp
    subst hp
    simp [demoStreamingPart]
  exact ⟨⟨rfl,
          approval_gating.1 demoApprovalPart (some demoAuthInput) none none
            "a1" demoAuthInput "secure_get_weather" rfl⟩,
         ⟨hstates, approval_gating.2 [demoStreamingPart] "a1" true hstates⟩⟩

/-- C5: whenever an approval prompt is rendered, its approval id is the id
carried by the part's approval, and clicking Approve emits exactly
`{ id: approvalId, approved: true }` while Deny emits
`{ id: approvalId, approved: false }`. -/
theorem approval_signal_payload :
    ∀ (part : ToolCallPart) (parsedArgs output : Option Json)
      (result : Option ToolResultPart) (aid : String) (args : Json) (tn : String),
      renderToolCallContent part parsedArgs output result
          = RenderedContent.approvalPrompt aid args tn →
        approvalClickSignal part parsedArgs output result true
            = some { id := aid, approved := true }
        ∧ approvalClickSignal part parsedArgs output result false
            = some { id := aid, approved := false }
        ∧ ∃ ap, part.approval = some ap ∧ ap.id = aid := by
  intro part parsedArgs output result aid args tn h
  refine ⟨?_, ?_,
    (render_approvalPrompt_inv part parsedArgs output result aid args tn h).2.1⟩
  · simp [approvalClickSignal, h, chatOnApprove]
  · simp [approvalClickSignal, h, chatOnDeny]

/-- Witness for C5 at the approval-requested demo part. -/
theorem approval_signal_payload_witness :
    approvalClickSignal demoApprovalPart (some demoAuthInput) none none true
        = some { id := "a1", approved := true }
    ∧ approvalClickSignal demoApprovalPart (some demoAuthInput) none none false
        = some { id := "a1", approved := false } := by
  have h := approval_signal_payload demoApprovalPart (some demoAuthInput) none none
    "a1" demoAuthInput "secure_get_weather" rfl
  exact ⟨h.1, h.2.1⟩

/-- Counting variant of the inner parts loop. -/
theorem countedFold_parts (parts : List MsgPart) (acc : (String → Option Json) × Nat) :
    parts.foldl (fun acc2 p => (toolInputsStep acc2.1 p, acc2.2 + 1)) acc
      = (parts.foldl toolInputsStep acc.1, acc.2 + parts.length) := by
  induction parts generalizing acc with
  | nil => simp
  | cons p ps ih =>
    simp only [List.foldl_cons, ih, List.length_cons]
    have h2 : acc.2 + 1 + ps.length = acc.2 + (ps.length + 1) := by omega
    rw [h2]

/-- Counting variant of the outer messages loop. -/
theorem countedFold_messages (messages : List Message)
    (acc : (String → Option Json) × Nat) :
    messages.foldl
        (fun acc m => m.parts.foldl (fun acc2 p => (toolInputsStep acc2.1 p, acc2.2 + 1)) acc)
        acc
      = (messages.foldl (fun inputs m => m.parts.foldl toolInputsStep inputs) acc.1,
         acc.2 + (messages.map fun m => m.parts.length).sum) := by
  induction messages generalizing acc with
  | nil => simp
  | cons m ms ih =>
    rw [List.foldl_cons, ih, countedFold_parts, List.foldl_cons]
    simp only [List.map_cons, List.sum_cons, Prod.mk.injEq]
    exact ⟨trivial, by omega⟩

/-- C8 (amended): the `toolInputs` mapping is recomputed as a pure function
of the whole message list — each recomputation's nested loops visit every
part of every message, so the work per recomputation is the total part
count, while the resulting map agrees with `buildToolInputs`. -/
theorem toolInputs_rebuild_scans_all :
    ∀ messages : List Message,
      (buildToolInputsCounted messages).2 = (messages.map fun m => m.parts.length).sum
      ∧ (buildToolInputsCounted messages).1 = buildToolInputs messages := by
  intro messages
  rw [buildToolInputsCounted, countedFold_messages]
  exact ⟨by simp, rfl⟩

/-- C8 counterexample: `demoHistoryPlusOne` extends the three-part
`demoHistory` by a single appended part (one chunk's worth of change), yet
the rebuild of the map visits all 4 parts — more than the 1 part created,
and 3 + 4 = 7 parts scanned over the two renders for 4 parts ever created —
so the mapping is recomputed by scanning the message list rather than
maintained incrementally in O(1) amortized per chunk. -/
theorem toolInputs_not_incremental :
    (buildToolInputsCounted demoHistory).2 = 3
    ∧ (buildToolInputsCounted demoHistoryPlusOne).2 = 4
    ∧ 1 < (buildToolInputsCounted demoHistoryPlusOne).2 := by
  exact ⟨rfl, rfl, by decide⟩
